import Mathlib

/-!
Shallow embedding of the github-agent-collab repository (multi-agent
GitHub automation: specification, developer, review and merge agents).
The merge-evaluation state machine of `src/agents/merge_agent.py` is
embedded together with the parts of `src/agents/base_agent.py`,
`src/agents/specification_agent.py`, `src/agents/review_agent.py` and
`src/main.py` that the verified properties touch.  Python strings are
modelled as Lean `String` (the agent sources contain mojibake glyph
literals, reproduced here codepoint for codepoint); Python `None`-or-bool
values are modelled as `Option Bool`.
-/

namespace GAC

/-- Glyph literal used for a passing criterion in
`MergeAgent.generate_merge_commit_message` (the source file stores the
check-mark emoji double-encoded; the exact codepoints of the literal are
reproduced). -/
def passGlyph : String := "âœ…"

/-- Glyph literal used for a failing criterion and for blocking review
comments (double-encoded cross-mark emoji, codepoints as in the source). -/
def failGlyph : String := "âŒ"

/-- Glyph literal heading `generate_blocking_comment` (double-encoded
no-entry emoji, codepoints as in the source). -/
def noEntryGlyph : String := "ğŸš«"

/-- Glyph literal used for advisory review comments (double-encoded
warning emoji, codepoints as in the source). -/
def warnGlyph : String := "âš ï¸"

/-- Glyph literal used for suggestion review comments (double-encoded
light-bulb emoji, codepoints as in the source). -/
def bulbGlyph : String := "ğŸ’¡"

/-- One review as listed by the forge: reviewer login and review state
(`APPROVED`, `CHANGES_REQUESTED`, `COMMENTED`, `PENDING`). -/
structure Review where
  user : String
  state : String
deriving DecidableEq, Repr

/-- One check run on a commit: name and conclusion. -/
structure CheckRun where
  name : String
  conclusion : String
deriving DecidableEq, Repr

/-- The `status` dictionary built by `MergeAgent.check_merge_criteria`.
`tests_passed` is `Option Bool` because the Python expression
`test_check and test_check.conclusion == "success"` evaluates to `None`
when no test check run exists. -/
structure MergeStatus where
  can_merge : Bool
  checks_passed : Bool
  tests_passed : Option Bool
  review_requirements_met : Bool
  branch_up_to_date : Bool
  blocking_issues : List String
deriving DecidableEq, Repr

/-- Insertion/update into a Python-dict-like association list: an existing
key keeps its position and gets the new value, a new key is appended.
Models `latest_reviews[review.user.login] = review.state`. -/
def updateAssoc : List (String × String) → String → String → List (String × String)
  | [], k, v => [(k, v)]
  | (k0, v0) :: rest, k, v =>
      if k0 == k then (k0, v) :: rest else (k0, v0) :: updateAssoc rest k v

/-- The `latest_reviews` dictionary of `MergeAgent.is_pr_approved`: one
entry per reviewer login, holding the most recently listed state. -/
def latestReviews (reviews : List Review) : List (String × String) :=
  reviews.foldl (fun acc r => updateAssoc acc r.user r.state) []

/-- Embeds `MergeAgent.is_pr_approved`: at least one latest-per-reviewer
APPROVED state and no latest-per-reviewer CHANGES_REQUESTED state. -/
def isPrApproved (reviews : List Review) : Bool :=
  let values := (latestReviews reviews).map Prod.snd
  let approvals := values.count "APPROVED"
  decide (1 ≤ approvals) && !(values.contains "CHANGES_REQUESTED")

/-- Embeds the review sub-check of `check_merge_criteria` (lines 84-89):
it counts APPROVED over ALL listed review states, not latest-per-reviewer. -/
def reviewRequirementsMet (reviews : List Review) : Bool :=
  let reviewStates := reviews.map Review.state
  decide (1 ≤ reviewStates.count "APPROVED") && !(reviewStates.contains "CHANGES_REQUESTED")

/-- Models Python `s.startswith(pre)` at the character level. -/
def strStartsWith (s pre : String) : Bool :=
  pre.data.isPrefixOf s.data

/-- Models Python `s.endswith(suf)` at the character level. -/
def strEndsWith (s suf : String) : Bool :=
  suf.data.isSuffixOf s.data

/-- Models Python `s.lower()` (ASCII case folding, which covers every
string the agents compare). -/
def strToLower (s : String) : String :=
  String.mk (s.data.map Char.toLower)

/-- Splitting a character list at every newline, keeping empty pieces:
the character-level model of Python `s.split("\n")`. -/
def splitLinesAux : List Char → List (List Char)
  | [] => [[]]
  | c :: rest =>
      match splitLinesAux rest with
      | [] => [[]]
      | line :: more =>
          if c == '\n' then [] :: line :: more else (c :: line) :: more

/-- Models Python `s.split("\n")`. -/
def splitLines (s : String) : List String :=
  (splitLinesAux s.data).map String.mk

/-- Sequential construction of the `status` dictionary in
`check_merge_criteria`, given the four already-computed sub-check values:
each failing (falsy) sub-check appends its reason string and clears
`can_merge`, in source order. -/
def mkMergeStatus (checksPassed : Bool) (testsPassed : Option Bool)
    (rrm : Bool) (upToDate : Bool) : MergeStatus :=
  let s0 : MergeStatus :=
    { can_merge := true, checks_passed := false, tests_passed := none,
      review_requirements_met := false, branch_up_to_date := false,
      blocking_issues := [] }
  let s1 := { s0 with checks_passed := checksPassed }
  let s1 := if !checksPassed then
      { s1 with blocking_issues := s1.blocking_issues ++ ["CI checks must pass"],
                can_merge := false } else s1
  let s2 := { s1 with tests_passed := testsPassed }
  let s2 := if !(testsPassed == some true) then
      { s2 with blocking_issues := s2.blocking_issues ++ ["All tests must pass"],
                can_merge := false } else s2
  let s3 := { s2 with review_requirements_met := rrm }
  let s3 := if !rrm then
      { s3 with blocking_issues := s3.blocking_issues ++ ["Required reviews must be approved"],
                can_merge := false } else s3
  let s4 := { s3 with branch_up_to_date := upToDate }
  let s4 := if !upToDate then
      { s4 with blocking_issues := s4.blocking_issues ++ ["Branch must be up to date with base"],
                can_merge := false } else s4
  s4

/-- Embeds `MergeAgent.check_merge_criteria`.  Inputs: the check runs of
the most recent commit on the PR head, the listed reviews, the PR base
sha, and the current head sha of the base branch. -/
def checkMergeCriteria (checks : List CheckRun) (reviews : List Review)
    (prBaseSha baseHeadSha : String) : MergeStatus :=
  let checksPassed := checks.all (fun c => c.conclusion == "success")
  let testCheck := checks.find? (fun c => strStartsWith (strToLower c.name) "test")
  let testsPassed : Option Bool := testCheck.map (fun c => c.conclusion == "success")
  mkMergeStatus checksPassed testsPassed (reviewRequirementsMet reviews)
    (prBaseSha == baseHeadSha)

/-- The merge agent's view of one pull request, fetched from the forge:
everything `evaluate_pr_for_merge` and its callees read. -/
structure PullRequest where
  number : Nat
  title : String
  body : Option String
  headRef : String
  reviews : List Review
  checks : List CheckRun
  prBaseSha : String
  baseHeadSha : String

/-- Embeds `MergeAgent.generate_merge_commit_message`: the message parts
joined by newlines, with pass/fail glyphs chosen by the truthiness of the
four status fields and `pr.body or "No description provided."`. -/
def generateMergeCommitMessage (pr : PullRequest) (st : MergeStatus) : String :=
  let messageParts : List String :=
    [ "Merge pull request #" ++ toString pr.number ++ " from " ++ pr.headRef,
      "",
      pr.title,
      "",
      "# Merge Criteria",
      "- CI Checks: " ++ (if st.checks_passed then passGlyph else failGlyph),
      "- Tests: " ++ (if st.tests_passed == some true then passGlyph else failGlyph),
      "- Reviews: " ++ (if st.review_requirements_met then passGlyph else failGlyph),
      "- Branch Status: " ++ (if st.branch_up_to_date then passGlyph else failGlyph),
      "",
      "# Changes",
      (match pr.body with
       | some b => if b.isEmpty then "No description provided." else b
       | none => "No description provided."),
      "",
      "# Reviews" ]
  let messageParts := messageParts ++
    pr.reviews.map (fun r => "- " ++ r.user ++ ": " ++ r.state)
  String.intercalate "\n" messageParts

/-- Embeds `MergeAgent.generate_blocking_comment`. -/
def generateBlockingComment (st : MergeStatus) : String :=
  let commentParts : List String :=
    [ "# " ++ noEntryGlyph ++ " Cannot Merge Pull Request",
      "",
      "The following criteria must be met before merging:",
      "" ]
  let commentParts := commentParts ++
    st.blocking_issues.map (fun issue => "- " ++ failGlyph ++ " " ++ issue)
  let commentParts := commentParts ++
    [ "",
      "Please address these issues and request a new review." ]
  String.intercalate "\n" commentParts

/-- The one action `evaluate_pr_for_merge` takes on a pull request in a
cycle: merge with a commit message, post a blocking comment, or nothing. -/
inductive MergeAction where
  | merge (commitMessage : String)
  | comment (body : String)
  | skip
deriving DecidableEq, Repr

/-- Discriminator: is the action a merge? -/
def MergeAction.isMerge : MergeAction → Bool
  | .merge _ => true
  | _ => false

/-- Embeds `MergeAgent.evaluate_pr_for_merge` as a function from the
fetched pull-request state to the action taken. -/
def evaluatePrForMerge (pr : PullRequest) : MergeAction :=
  if !isPrApproved pr.reviews then .skip
  else
    let st := checkMergeCriteria pr.checks pr.reviews pr.prBaseSha pr.baseHeadSha
    if st.can_merge then .merge (generateMergeCommitMessage pr st)
    else .comment (generateBlockingComment st)

/-- Pair the two runs of a same-state evaluation: `check_merge_criteria`
keeps no state between calls, so re-evaluation is modelled as applying the
same pure function twice to the same fetched inputs. -/
def evaluateTwice (pr : PullRequest) : MergeAction × MergeAction :=
  (evaluatePrForMerge pr, evaluatePrForMerge pr)

/-- Embeds `MergeAgent.process` (iterating `evaluate_pr_for_merge` over the
open pull requests) together with the fetch step of each iteration: each
list element is either the successfully fetched state of one pull request
or the exception raised while fetching it.  `evaluate_pr_for_merge` and
`process` contain no try/except, so a raised exception ends the loop; the
result is the list of actions taken before the exception and a flag that
is `false` when the cycle ended in an exception. -/
def mergeAgentProcess : List (Except Unit PullRequest) → List MergeAction × Bool
  | [] => ([], true)
  | Except.ok pr :: rest =>
      let r := mergeAgentProcess rest
      (evaluatePrForMerge pr :: r.1, r.2)
  | Except.error _ :: _ => ([], false)

/-- Embeds the merge agent's slot of `AgentOrchestrator.run_agent_cycle`:
the orchestrator wraps `agent.process()` in try/except, so whatever
exception ends the agent's loop is logged and swallowed at cycle level and
only the actions already taken stand. -/
def runMergeAgentInCycle (fetches : List (Except Unit PullRequest)) : List MergeAction :=
  (mergeAgentProcess fetches).1

/-- Embeds `BaseAgent.merge_pr`: the call to the forge's merge operation
is wrapped in try/except, returning `true` on success and `false` on any
exception; no exception escapes. -/
def mergePr (mergeOutcome : Except String Unit) : Bool :=
  match mergeOutcome with
  | Except.ok _ => true
  | Except.error _ => false

/-- Modelled from the spec: the forge's merge operation (external PyGithub
call `pr.merge(...)`, not part of src/) is the authoritative guard — a
merge attempt on an already-merged pull request fails with an error
instead of succeeding a second time. -/
def forgeMergeOutcome (alreadyMerged : Bool) : Except String Unit :=
  if alreadyMerged then Except.error "Pull Request is not mergeable" else Except.ok ()

/-- A pull request as seen by the specification agent's status scan:
title, merged flag, and state string. -/
structure PRInfo where
  title : String
  merged : Bool
  state : String
deriving DecidableEq, Repr

/-- A feature record of the specification document, restricted to the
fields the status-update scan reads and writes. -/
structure Feature where
  id : String
  status : String
deriving DecidableEq, Repr

/-- The inner PR scan of
`SpecificationAgent.review_and_update_specifications`: walk the pull
requests in listing order; the first one whose lowercased title starts
with `feat: <feature-id>` and is merged yields `completed`, open yields
`in-progress` (both `break`); a matching closed-unmerged pull request
does not `break` and the scan continues. -/
def featureNewStatus (fid : String) : List PRInfo → Option String
  | [] => none
  | pr :: rest =>
      if strStartsWith (strToLower pr.title) ("feat: " ++ fid) then
        if pr.merged then some "completed"
        else if pr.state == "open" then some "in-progress"
        else featureNewStatus fid rest
      else featureNewStatus fid rest

/-- The per-feature effect of `review_and_update_specifications`: only a
feature whose status is `pending` is scanned and possibly rewritten. -/
def updateFeatureStatus (f : Feature) (prs : List PRInfo) : Feature :=
  if f.status == "pending" then
    match featureNewStatus f.id prs with
    | some s => { f with status := s }
    | none => f
  else f

/-- Substring test on char lists: does the pattern occur as a contiguous
run?  Models the Python `in` operator on strings. -/
def containsSubAux (pat : List Char) : List Char → Bool
  | [] => pat.isEmpty
  | c :: rest => pat.isPrefixOf (c :: rest) || containsSubAux pat rest

/-- Substring test on strings, modelling Python `pat in s`. -/
def strContains (s pat : String) : Bool :=
  containsSubAux pat.data s.data

/-- Matcher for `: .+` (a colon, a space, then at least one non-newline
character), the mandatory tail of the conventional-commit pattern. -/
def colonSpaceMatch : List Char → Bool
  | ':' :: ' ' :: c :: _ => c != '\n'
  | _ => false

/-- Matcher for the rest of `\(.+\)): .+` after at least one scope
character has been consumed: at each position either close the scope on a
`)` whose tail matches `: .+`, or extend the scope with any further
non-newline character (regex backtracking explores both). -/
def scopeAux : List Char → Bool
  | [] => false
  | c :: rest => (c == ')' && colonSpaceMatch rest) || (c != '\n' && scopeAux rest)

/-- Matcher for `.+\): .+` right after the opening parenthesis: the scope
needs at least one non-newline character before a closing parenthesis. -/
def scopeMid : List Char → Bool
  | [] => false
  | c :: rest => c != '\n' && scopeAux rest

/-- The type prefixes of the conventional-commit pattern. -/
def commitKeywords : List String :=
  ["feat", "fix", "docs", "style", "refactor", "test", "chore"]

/-- Embeds the `re.match` of
`^(feat|fix|docs|style|refactor|test|chore)(\(.+\))?: .+` in
`ReviewAgent.check_commit_messages`: an anchored match of one keyword,
an optional parenthesised scope, then `: ` and a non-empty first line
remainder (`.` never matches a newline). -/
def conventionalCommitMatch (msg : String) : Bool :=
  commitKeywords.any fun kw =>
    strStartsWith msg kw &&
      (let rest := (msg.drop kw.length).data
       colonSpaceMatch rest ||
         (match rest with
          | '(' :: more => scopeMid more
          | _ => false))

/-- One file of a pull request's diff as the review agent reads it. -/
structure PRFile where
  filename : String
  patch : String

/-- One commit of a pull request as the review agent reads it. -/
structure CommitInfo where
  sha : String
  message : String

/-- The review agent's view of one pull request: listed reviews, commits,
changed files, and the repository contents of a path at the PR head sha
(`repo.get_contents(path, ref=pr.head.sha)`). -/
structure ReviewPR where
  reviews : List Review
  commits : List CommitInfo
  files : List PRFile
  contentsAtHead : String → String

/-- A review submission (`pr.create_review`): body text and event kind. -/
structure ReviewSubmission where
  body : String
  event : String

/-- Embeds `ReviewAgent.is_blocking_issue`: a comment is blocking when it
starts with the cross-mark glyph. -/
def isBlockingIssue (comment : String) : Bool :=
  strStartsWith comment failGlyph

/-- Embeds `ReviewAgent.has_reviewed_pr`: some listed review is authored
by the agent's own account. -/
def hasReviewedPr (botUsername : String) (pr : ReviewPR) : Bool :=
  pr.reviews.any (fun review => review.user == botUsername)

/-- Embeds `ReviewAgent.check_commit_messages`: per commit, one entry when
the message misses the conventional-commit pattern and one when its first
line exceeds 72 characters. -/
def checkCommitMessages (commits : List CommitInfo) : List String :=
  (commits.map fun commit =>
    (if !conventionalCommitMatch commit.message then
      [failGlyph ++ " Commit `" ++ commit.sha.take 7 ++ "` doesn\x27t follow conventional commit format"]
     else []) ++
    (if 72 < ((splitLines commit.message).headD "").length then
      [failGlyph ++ " Commit `" ++ commit.sha.take 7 ++ "` has too long subject line (>72 chars)"]
     else [])).flatten

/-- Embeds `ReviewAgent.check_code`: per Python file of the diff, the
wildcard-import, missing-docstring, long-line and bare-except checks on
the patch text. -/
def checkCode (files : List PRFile) : List String :=
  (files.map fun file =>
    if strEndsWith file.filename ".py" then
      (if strContains file.patch "import *" then
        [warnGlyph ++ " Avoid using wildcard imports in `" ++ file.filename ++ "`"]
       else []) ++
      (if (strContains file.patch "def " || strContains file.patch "class ") &&
          !strContains file.patch "\"\"\"" then
        [warnGlyph ++ " Missing docstrings in `" ++ file.filename ++ "`"]
       else []) ++
      (if ((splitLines file.patch).filter
            (fun line => strStartsWith line "+" && 88 < line.length)) != [] then
        [warnGlyph ++ " Lines too long in `" ++ file.filename ++ "` (>88 chars)"]
       else []) ++
      (if strContains file.patch "except:" then
        [failGlyph ++ " Bare except clause found in `" ++ file.filename ++ "`. Please specify exception types."]
       else [])
    else []).flatten

/-- Set-like accumulation preserving first-insertion order, modelling the
`set.add` calls of `check_tests` (python set iteration order is taken as
insertion order here; no verified property depends on it). -/
def addToSet (s : List String) (x : String) : List String :=
  if s.contains x then s else s ++ [x]

/-- Does the content contain a `def test_\w` occurrence?  Models
`re.search(r"def test_\w+", content)`. -/
def hasTestFunDef (content : String) : Bool :=
  go content.data
where
  go : List Char → Bool
    | [] => false
    | c :: rest =>
        (("def test_".data).isPrefixOf (c :: rest) &&
          (match (c :: rest).drop 9 with
           | d :: _ => d.isAlphanum || d == '_'
           | [] => false)) ||
        go rest

/-- Embeds `ReviewAgent.check_tests`: collect changed source and test
files, report sources with no matching test file, then check each test
file's content at the PR head for assertions, test-function naming and
pytest fixture use. -/
def checkTests (pr : ReviewPR) : List String :=
  let sourceFiles := pr.files.foldl (fun acc file =>
    if strStartsWith file.filename "src/" && strEndsWith file.filename ".py" then
      addToSet acc file.filename
    else acc) []
  let testFiles := pr.files.foldl (fun acc file =>
    if !(strStartsWith file.filename "src/" && strEndsWith file.filename ".py") &&
        strStartsWith file.filename "tests/" && strEndsWith file.filename ".py" then
      addToSet acc file.filename
    else acc) []
  let missingIssues := (sourceFiles.map fun sourceFile =>
    if !(testFiles.contains ("tests/" ++ sourceFile.drop 4)) then
      [failGlyph ++ " Missing tests for `" ++ sourceFile ++ "`"]
    else []).flatten
  let qualityIssues := (testFiles.map fun testFile =>
    let content := pr.contentsAtHead testFile
    (if !strContains content "assert" then
      [failGlyph ++ " No assertions found in `" ++ testFile ++ "`"]
     else []) ++
    (if !hasTestFunDef content then
      [warnGlyph ++ " Test functions in `" ++ testFile ++ "` should start with \x27test_\x27"]
     else []) ++
    (if !strContains content "fixture" && strContains content "pytest" then
      [bulbGlyph ++ " Consider using pytest fixtures in `" ++ testFile ++ "` for better test organization"]
     else [])).flatten
  missingIssues ++ qualityIssues

/-- Embeds `ReviewAgent.review_pull_request` as a function from the
fetched pull-request state to the submitted review, `none` when the agent
has already reviewed the pull request and therefore returns early. -/
def reviewPullRequest (botUsername : String) (pr : ReviewPR) : Option ReviewSubmission :=
  if hasReviewedPr botUsername pr then none
  else
    let reviewComments :=
      checkCommitMessages pr.commits ++ checkCode pr.files ++ checkTests pr
    if reviewComments != [] then
      some { body := "## Code Review Feedback\n\n" ++ String.intercalate "\n" reviewComments,
             event := if reviewComments.any isBlockingIssue then "REQUEST_CHANGES" else "COMMENT" }
    else
      some { body := "Code looks good! All checks passed.", event := "APPROVE" }

/-! Concrete inputs used by witnesses and counterexamples. -/

/-- The spec's merge scenario verbatim: one APPROVED review by alice, one
successful check run named `unit-test`, matching base shas. -/
def prScenarioUnitTest : PullRequest :=
  { number := 1
    title := "feat: add user auth"
    body := some "Implements user authentication"
    headRef := "feature-branch"
    reviews := [⟨"alice", "APPROVED"⟩]
    checks := [⟨"unit-test", "success"⟩]
    prBaseSha := "abc123"
    baseHeadSha := "abc123" }

/-- The merge scenario with the check run renamed so that its name starts
with `test`, which is what `check_merge_criteria` requires. -/
def prScenarioTestUnit : PullRequest :=
  { prScenarioUnitTest with checks := [⟨"test-unit", "success"⟩] }

/-- The merge status computed for the renamed-check scenario. -/
def stScenarioTestUnit : MergeStatus :=
  checkMergeCriteria prScenarioTestUnit.checks prScenarioTestUnit.reviews
    prScenarioTestUnit.prBaseSha prScenarioTestUnit.baseHeadSha

/-- The commit message generated for the renamed-check scenario. -/
def msgScenarioTestUnit : String :=
  generateMergeCommitMessage prScenarioTestUnit stScenarioTestUnit

/-- A mergeable pull request sitting behind a failed fetch in the same
cycle. -/
def prMergeableBehindError : PullRequest :=
  { number := 2
    title := "feat: second feature"
    body := some "Second feature"
    headRef := "feature-two"
    reviews := [⟨"carol", "APPROVED"⟩]
    checks := [⟨"test-suite", "success"⟩]
    prBaseSha := "def456"
    baseHeadSha := "def456" }

/-- A pull request whose only latest review requests changes. -/
def prUnapproved : PullRequest :=
  { number := 3
    title := "fix: broken thing"
    body := none
    headRef := "fix-branch"
    reviews := [⟨"bob", "CHANGES_REQUESTED"⟩]
    checks := [⟨"test-suite", "success"⟩]
    prBaseSha := "aaa"
    baseHeadSha := "aaa" }

/-- A pull request already carrying one review by the agent account. -/
def prAlreadyReviewed : ReviewPR :=
  { reviews := [⟨"test-bot", "APPROVED"⟩]
    commits := [⟨"abc123def", "feat: add user authentication"⟩]
    files := []
    contentsAtHead := fun _ => "" }

/-- The reviews of the superseded-review counterexample: alice first
requests changes and later approves. -/
def supersededReviews : List Review :=
  [⟨"alice", "CHANGES_REQUESTED"⟩, ⟨"alice", "APPROVED"⟩]

/-- The pending feature of the conflicting-PR counterexample. -/
def featureUserAuth : Feature := ⟨"user-auth", "pending"⟩

/-- Pull requests for the same feature with conflicting states: an open
one listed first, a merged one listed second. -/
def prsConflicting : List PRInfo :=
  [⟨"feat: user-auth ui", false, "open"⟩, ⟨"feat: user-auth", true, "closed"⟩]

/-! Helper lemmas. -/

/-- The sequential status construction is a pure function of the four
sub-check values; its conjunction and bookkeeping invariants hold for all
24 combinations. -/
theorem mkMergeStatus_spec : ∀ (c : Bool) (t : Option Bool) (r u : Bool),
    ((mkMergeStatus c t r u).can_merge = true ↔
      ((mkMergeStatus c t r u).checks_passed = true ∧
       (mkMergeStatus c t r u).tests_passed = some true ∧
       (mkMergeStatus c t r u).review_requirements_met = true ∧
       (mkMergeStatus c t r u).branch_up_to_date = true)) ∧
    (mkMergeStatus c t r u).blocking_issues.length =
      ((if (mkMergeStatus c t r u).checks_passed then 0 else 1) +
       (if (mkMergeStatus c t r u).tests_passed = some true then 0 else 1) +
       (if (mkMergeStatus c t r u).review_requirements_met then 0 else 1) +
       (if (mkMergeStatus c t r u).branch_up_to_date then 0 else 1)) := by
  decide

/-- The `review_requirements_met` field records the review sub-check value
unchanged. -/
theorem mkMergeStatus_rrm : ∀ (c : Bool) (t : Option Bool) (r u : Bool),
    (mkMergeStatus c t r u).review_requirements_met = r := by
  decide

/-- Facts about the status built from a vacuously passing empty check
list: checks pass, tests are `None`, merging is blocked on the tests
reason only. -/
theorem mkMergeStatus_empty_checks : ∀ (r u : Bool),
    (mkMergeStatus true none r u).checks_passed = true ∧
    (mkMergeStatus true none r u).tests_passed = none ∧
    (mkMergeStatus true none r u).can_merge = false ∧
    "All tests must pass" ∈ (mkMergeStatus true none r u).blocking_issues ∧
    "CI checks must pass" ∉ (mkMergeStatus true none r u).blocking_issues := by
  decide

/-- Updating a dict-like association list under a fresh key appends. -/
theorem updateAssoc_of_fresh (acc : List (String × String)) (k v : String)
    (h : ∀ p ∈ acc, p.1 ≠ k) : updateAssoc acc k v = acc ++ [(k, v)] := by
  induction acc with
  | nil => rfl
  | cons p rest ih =>
      have hp : p.1 ≠ k := h p (List.mem_cons_self p rest)
      have hrest : ∀ q ∈ rest, q.1 ≠ k := fun q hq => h q (List.mem_cons_of_mem p hq)
      cases p with
      | mk k0 v0 =>
          simp only [updateAssoc]
          rw [if_neg (by simpa using hp), ih hrest]
          simp

/-- Folding dict insertion over reviews with pairwise-distinct reviewer
logins appends them all in order. -/
theorem foldl_updateAssoc_of_nodup (reviews : List Review)
    (acc : List (String × String))
    (hacc : ∀ r ∈ reviews, ∀ p ∈ acc, p.1 ≠ r.user)
    (hnd : (reviews.map Review.user).Nodup) :
    reviews.foldl (fun acc r => updateAssoc acc r.user r.state) acc =
      acc ++ reviews.map (fun r => (r.user, r.state)) := by
  induction reviews generalizing acc with
  | nil => simp
  | cons r rest ih =>
      have hfresh : ∀ p ∈ acc, p.1 ≠ r.user :=
        hacc r (List.mem_cons_self r rest)
      have hnd' : (rest.map Review.user).Nodup := by
        simpa using hnd.of_cons
      have hnotmem : r.user ∉ rest.map Review.user := by
        have := hnd
        rw [List.map_cons, List.nodup_cons] at this
        exact this.1
      simp only [List.foldl_cons]
      rw [updateAssoc_of_fresh acc r.user r.state hfresh]
      rw [ih (acc ++ [(r.user, r.state)]) ?_ hnd']
      · simp
      · intro r' hr' p hp
        rcases List.mem_append.mp hp with hpl | hpr
        · exact hacc r' (List.mem_cons_of_mem r hr') p hpl
        · have hpe : p = (r.user, r.state) := by simpa using hpr
          subst hpe
          intro hcontra
          replace hcontra : r.user = r'.user := hcontra
          apply hnotmem
          rw [hcontra]
          exact List.mem_map_of_mem Review.user hr'

/-- With at most one review per reviewer, the latest-per-reviewer
dictionary lists exactly the reviews. -/
theorem latestReviews_of_nodup (reviews : List Review)
    (hnd : (reviews.map Review.user).Nodup) :
    latestReviews reviews = reviews.map (fun r => (r.user, r.state)) := by
  unfold latestReviews
  rw [foldl_updateAssoc_of_nodup reviews [] (by simp) hnd]
  simp

/-! Claim theorems. -/

/-- C1: for every status produced by `check_merge_criteria`, `can_merge`
is true iff all four sub-checks are true (with the `tests_passed`
sub-check true meaning the Python value `True`, its only truthy value),
and `blocking_issues` has exactly one entry per falsy sub-check. -/
theorem can_merge_pure_and (checks : List CheckRun) (reviews : List Review)
    (prBaseSha baseHeadSha : String) :
    ((checkMergeCriteria checks reviews prBaseSha baseHeadSha).can_merge = true ↔
      ((checkMergeCriteria checks reviews prBaseSha baseHeadSha).checks_passed = true ∧
       (checkMergeCriteria checks reviews prBaseSha baseHeadSha).tests_passed = some true ∧
       (checkMergeCriteria checks reviews prBaseSha baseHeadSha).review_requirements_met = true ∧
       (checkMergeCriteria checks reviews prBaseSha baseHeadSha).branch_up_to_date = true)) ∧
    (checkMergeCriteria checks reviews prBaseSha baseHeadSha).blocking_issues.length =
      ((if (checkMergeCriteria checks reviews prBaseSha baseHeadSha).checks_passed then 0 else 1) +
       (if (checkMergeCriteria checks reviews prBaseSha baseHeadSha).tests_passed = some true then 0 else 1) +
       (if (checkMergeCriteria checks reviews prBaseSha baseHeadSha).review_requirements_met then 0 else 1) +
       (if (checkMergeCriteria checks reviews prBaseSha baseHeadSha).branch_up_to_date then 0 else 1)) :=
  mkMergeStatus_spec _ _ _ _

/-- C9: with an empty check-run list, universal quantification over zero
checks makes `checks_passed` true, no check name starts with `test` so
`tests_passed` is `None` (falsy but not `False`), hence `can_merge` is
false with `All tests must pass` blocking but not `CI checks must pass`. -/
theorem empty_checks_vacuous_pass_tests_none (reviews : List Review)
    (prBaseSha baseHeadSha : String) :
    (checkMergeCriteria [] reviews prBaseSha baseHeadSha).checks_passed = true ∧
    (checkMergeCriteria [] reviews prBaseSha baseHeadSha).tests_passed = none ∧
    (checkMergeCriteria [] reviews prBaseSha baseHeadSha).can_merge = false ∧
    "All tests must pass" ∈ (checkMergeCriteria [] reviews prBaseSha baseHeadSha).blocking_issues ∧
    "CI checks must pass" ∉ (checkMergeCriteria [] reviews prBaseSha baseHeadSha).blocking_issues :=
  mkMergeStatus_empty_checks _ _

/-- C7: merge evaluation is a pure function of the fetched inputs — the
two runs of `evaluateTwice` are the same `evaluate_pr_for_merge` value, so
re-running on unchanged state yields an identical decision. -/
theorem merge_evaluation_deterministic (pr : PullRequest) :
    evaluateTwice pr = (evaluatePrForMerge pr, evaluatePrForMerge pr) ∧
    (evaluateTwice pr).1 = (evaluateTwice pr).2 :=
  ⟨rfl, rfl⟩

/-- C6: `merge_pr` wraps the forge merge call in try/except — on the
error the forge raises for an already-merged pull request it returns the
failure value `false` instead of propagating the exception. -/
theorem merge_failure_swallowed (alreadyMerged : Bool)
    (h : alreadyMerged = true) :
    mergePr (forgeMergeOutcome alreadyMerged) = false := by
  subst h
  rfl

/-- Witness for C6 at the concrete already-merged input. -/
theorem merge_failure_swallowed_witness :
    mergePr (forgeMergeOutcome true) = false :=
  merge_failure_swallowed true rfl

/-- C10: a pull request already reviewed by the agent's own account is
skipped — `review_pull_request` returns before computing or submitting
anything. -/
theorem already_reviewed_pr_skipped (botUsername : String) (pr : ReviewPR)
    (h : hasReviewedPr botUsername pr = true) :
    reviewPullRequest botUsername pr = none := by
  unfold reviewPullRequest
  rw [h]
  rfl

/-- Witness for C10 on a pull request carrying one review by `test-bot`. -/
theorem already_reviewed_pr_skipped_witness :
    hasReviewedPr "test-bot" prAlreadyReviewed = true ∧
    reviewPullRequest "test-bot" prAlreadyReviewed = none :=
  ⟨by decide, already_reviewed_pr_skipped "test-bot" prAlreadyReviewed (by decide)⟩

/-- C3 counterexample: when alice first requests changes and later
approves, `is_pr_approved` (latest-per-reviewer) passes while the review
sub-check inside `check_merge_criteria` (all listed states) fails, so the
two gates disagree. -/
theorem review_gate_disagrees_on_superseded_review :
    (checkMergeCriteria [] supersededReviews "sha" "sha").review_requirements_met = false ∧
    isPrApproved supersededReviews = true := by
  decide

/-- C3 amended: the review sub-check of `check_merge_criteria` scans all
listed review states rather than latest-per-reviewer, so it coincides with
the `is_pr_approved` gate exactly when each reviewer has at most one
listed review. -/
theorem review_gate_agrees_on_single_review_per_reviewer
    (checks : List CheckRun) (reviews : List Review) (prBaseSha baseHeadSha : String)
    (h : (reviews.map Review.user).Nodup) :
    (checkMergeCriteria checks reviews prBaseSha baseHeadSha).review_requirements_met =
      isPrApproved reviews := by
  have h1 : (checkMergeCriteria checks reviews prBaseSha baseHeadSha).review_requirements_met =
      reviewRequirementsMet reviews := mkMergeStatus_rrm _ _ _ _
  rw [h1]
  unfold isPrApproved
  rw [latestReviews_of_nodup reviews h]
  simp [reviewRequirementsMet, List.map_map, Function.comp]

/-- Witness for C3 on a single-review input. -/
theorem review_gate_agreement_witness :
    (([⟨"alice", "APPROVED"⟩] : List Review).map Review.user).Nodup ∧
    (checkMergeCriteria [] [⟨"alice", "APPROVED"⟩] "sha" "sha").review_requirements_met =
      isPrApproved [⟨"alice", "APPROVED"⟩] :=
  ⟨by decide,
   review_gate_agrees_on_single_review_per_reviewer [] [⟨"alice", "APPROVED"⟩] "sha" "sha"
     (by decide)⟩

/-- C4: a pull request whose latest-per-reviewer states contain no
APPROVED entry, or contain a CHANGES_REQUESTED entry, fails the pre-filter
and `evaluate_pr_for_merge` takes no action: no merge, no comment. -/
theorem unapproved_pr_no_action (pr : PullRequest)
    (h : ((latestReviews pr.reviews).map Prod.snd).count "APPROVED" = 0 ∨
         "CHANGES_REQUESTED" ∈ (latestReviews pr.reviews).map Prod.snd) :
    evaluatePrForMerge pr = MergeAction.skip := by
  have happ : isPrApproved pr.reviews = false := by
    unfold isPrApproved
    rcases h with h | h
    · simp [h]
    · simp [h]
  unfold evaluatePrForMerge
  rw [happ]
  rfl

/-- Witness for C4 on a pull request with one CHANGES_REQUESTED review. -/
theorem unapproved_pr_no_action_witness :
    "CHANGES_REQUESTED" ∈ (latestReviews prUnapproved.reviews).map Prod.snd ∧
    evaluatePrForMerge prUnapproved = MergeAction.skip :=
  ⟨by decide, unapproved_pr_no_action prUnapproved (Or.inr (by decide))⟩

/-- C2 counterexample: in the spec's scenario the check run is named
`unit-test`, which does not start with `test`, so `tests_passed` is
`None` and the evaluation does not merge. -/
theorem scenario_unit_test_not_merged :
    (checkMergeCriteria prScenarioUnitTest.checks prScenarioUnitTest.reviews
        prScenarioUnitTest.prBaseSha prScenarioUnitTest.baseHeadSha).can_merge = false ∧
    (evaluatePrForMerge prScenarioUnitTest).isMerge = false := by
  decide

set_option maxRecDepth 4000 in
/-- C2 amended: with the check run named so that it starts with `test`
(`test-unit`), the scenario merges: `can_merge` is true and the single
action is a merge whose commit message contains the PR title and the
passing glyph line for each of the four criteria. -/
theorem scenario_test_check_merges :
    stScenarioTestUnit.can_merge = true ∧
    evaluatePrForMerge prScenarioTestUnit = MergeAction.merge msgScenarioTestUnit ∧
    strContains msgScenarioTestUnit prScenarioTestUnit.title = true ∧
    strContains msgScenarioTestUnit ("- CI Checks: " ++ passGlyph) = true ∧
    strContains msgScenarioTestUnit ("- Tests: " ++ passGlyph) = true ∧
    strContains msgScenarioTestUnit ("- Reviews: " ++ passGlyph) = true ∧
    strContains msgScenarioTestUnit ("- Branch Status: " ++ passGlyph) = true := by
  decide

/-- C5 counterexample: a fetch exception on the first pull request stops
`process` before the second, mergeable pull request is evaluated at all —
the agent does not continue with the remaining pull requests. -/
theorem fetch_error_halts_remaining_prs :
    (mergeAgentProcess [Except.error (), Except.ok prMergeableBehindError]).1 = [] ∧
    (evaluatePrForMerge prMergeableBehindError).isMerge = true := by
  decide

/-- C5 amended: an exception while fetching input state aborts the merge
agent's whole cycle — the pull requests before the failing one keep their
actions, the failing one and every later one get none, and the orchestrator
swallows the exception at cycle level. -/
theorem fetch_error_aborts_merge_cycle (l1 : List PullRequest)
    (l2 : List (Except Unit PullRequest)) :
    mergeAgentProcess (l1.map Except.ok ++ Except.error () :: l2) =
      (l1.map evaluatePrForMerge, false) ∧
    runMergeAgentInCycle (l1.map Except.ok ++ Except.error () :: l2) =
      l1.map evaluatePrForMerge := by
  have hmain : mergeAgentProcess (l1.map Except.ok ++ Except.error () :: l2) =
      (l1.map evaluatePrForMerge, false) := by
    induction l1 with
    | nil => rfl
    | cons pr rest ih =>
        simp only [List.map_cons, List.cons_append, mergeAgentProcess, List.append_eq]
        rw [ih]
  refine ⟨hmain, ?_⟩
  unfold runMergeAgentInCycle
  rw [hmain]

/-- The PR scan of the specification agent expressed through `find?`: the
first listed pull request matching the title prefix that is merged or open
determines the result. -/
theorem featureNewStatus_eq_find (fid : String) (prs : List PRInfo) :
    featureNewStatus fid prs =
      (prs.find? (fun pr => strStartsWith (strToLower pr.title) ("feat: " ++ fid) &&
          (pr.merged || pr.state == "open"))).map
        (fun pr => if pr.merged then "completed" else "in-progress") := by
  induction prs with
  | nil => rfl
  | cons pr rest ih =>
      cases ht : strStartsWith (strToLower pr.title) ("feat: " ++ fid) with
      | false => simp [featureNewStatus, List.find?, ht, ih]
      | true =>
          cases hm : pr.merged with
          | true => simp [featureNewStatus, List.find?, ht, hm]
          | false =>
              cases ho : pr.state == "open" with
              | true => simp [featureNewStatus, List.find?, ht, hm, ho]
              | false => simp [featureNewStatus, List.find?, ht, hm, ho, ih]

/-- C8 counterexample: with an open matching pull request listed before a
merged matching one, the scan stops at the open one and sets
`in-progress`, although a merged matching pull request exists. -/
theorem feature_status_first_match_wins :
    (updateFeatureStatus featureUserAuth prsConflicting).status = "in-progress" ∧
    (prsConflicting.any fun pr =>
        strStartsWith (strToLower pr.title) ("feat: " ++ featureUserAuth.id) &&
          pr.merged) = true := by
  decide

/-- C8 amended: only a `pending` feature is rewritten, and its new status
is decided by the FIRST pull request in listing order whose lowercased
title starts with `feat: <feature-id>` and is merged or open — `completed`
when that one is merged, `in-progress` when it is open; with no such pull
request the status stays `pending`. -/
theorem feature_status_update_first_match (f : Feature) (prs : List PRInfo) :
    updateFeatureStatus f prs =
      if f.status == "pending" then
        match prs.find? (fun pr => strStartsWith (strToLower pr.title) ("feat: " ++ f.id) &&
            (pr.merged || pr.state == "open")) with
        | some pr => { f with status := if pr.merged then "completed" else "in-progress" }
        | none => f
      else f := by
  unfold updateFeatureStatus
  rw [featureNewStatus_eq_find]
  cases hfind : prs.find? (fun pr => strStartsWith (strToLower pr.title) ("feat: " ++ f.id) &&
      (pr.merged || pr.state == "open")) with
  | none => simp
  | some pr => simp

end GAC
